import Mathlib

/-!
Verification development for the cdpbrowser / autobrowser / voicebrowser
example programs of the mcp-go-sdk repository.

The Go source is shallowly embedded:
* the cascading element resolver (`findElementWithSmartSelector`) and the
  `ClickButton` / `ChooseOption` tool handlers of
  `examples/server/cdpbrowser/main.go`;
* the tool-catalog adapter (`convertToOpenAITools`), the rate-limit retry
  loop of `sendChatRequest`, the conversation loop, the tool-result
  normalization, and the learning/replay engine (`executeStoredCommands`,
  `calculateHash`) shared by the autobrowser and voicebrowser clients.

External collaborators (the live page queried through chromedp, the MCP
backend, the OpenAI service, the JSON codec) are modelled as oracles at
their call boundary; everything the Go functions compute themselves is
translated operation by operation.
-/

namespace Spec2Proof

/-! ## Element resolver (examples/server/cdpbrowser/main.go) -/

/-- The two chromedp query modes the server uses: `chromedp.ByQuery`
(CSS) and `chromedp.BySearch` (XPath). -/
inductive QueryKind where
  | byQuery
  | bySearch
deriving DecidableEq, Repr

/-- Oracle for the live page: `query q k = true` models
`chromedp.Run(ctx, chromedp.Nodes(q, &nodes, k))` returning no error and
at least one node (`err == nil && len(nodes) > 0`). -/
structure PageModel where
  query : String → QueryKind → Bool

/-- Strategy 1 query string: `fmt.Sprintf("[aria-label=\x22%s\x22]", selector)`. -/
def ariaQuery (s : String) : String := "[aria-label=\"" ++ s ++ "\"]"

/-- Strategy 4 query string: `fmt.Sprintf("[aria-label*=\x22%s\x22]", selector)`. -/
def ariaContainsQuery (s : String) : String := "[aria-label*=\"" ++ s ++ "\"]"

/-- Strategy 5 query string: `fmt.Sprintf("[name=\x22%s\x22]", selector)`. -/
def nameQuery (s : String) : String := "[name=\"" ++ s ++ "\"]"

/-- Strategy 6 query string: `fmt.Sprintf("[placeholder=\x22%s\x22]", selector)`. -/
def placeholderQuery (s : String) : String := "[placeholder=\"" ++ s ++ "\"]"

/-- Strategy 7 query string (exact visible text on button/link/input-value). -/
def textXPathQuery (s : String) : String :=
  "//button[text()=\"" ++ s ++ "\"] | //a[text()=\"" ++ s ++ "\"] | //input[@value=\"" ++ s ++ "\"]"

/-- Strategy 8 query string (substring visible text on the same element set). -/
def containsTextXPathQuery (s : String) : String :=
  "//button[contains(text(), \"" ++ s ++ "\")] | //a[contains(text(), \"" ++ s
    ++ "\")] | //input[contains(@value, \"" ++ s ++ "\")]"

/-- `strings.Contains(s, string(c))` for a one-character needle. -/
def strContainsChar (s : String) (c : Char) : Bool := s.data.contains c

/-- `strings.HasPrefix(s, pre)`. -/
def strHasPrefix (s pre : String) : Bool := pre.data.isPrefixOf s.data

/-- The source's guard on strategy 3:
`!strings.HasPrefix(selector, "#") && !strings.Contains(selector, ".") &&
!strings.Contains(selector, "[") && !strings.Contains(selector, " ")`.
Note the first conjunct tests only the leading character. -/
def idShapeGuard (s : String) : Bool :=
  !(strHasPrefix s "#") && !(strContainsChar s '.')
    && !(strContainsChar s '[') && !(strContainsChar s ' ')

/-- The guard as the specification words it: the input contains none of
`#`, `.`, `[`, or a space. -/
def specIdGuard (s : String) : Bool :=
  !(strContainsChar s '#') && !(strContainsChar s '.')
    && !(strContainsChar s '[') && !(strContainsChar s ' ')

/-- Embedding of `findElementWithSmartSelector`. Returns the locator and a
flag that is `true` when the Go function returns a nil error (an element
was found by some strategy) and `false` for the final
`return selector, fmt.Errorf("element not found ...")` path. -/
def findElementWithSmartSelector (page : PageModel) (selector : String) : String × Bool :=
  if page.query (ariaQuery selector) QueryKind.byQuery then (ariaQuery selector, true)
  else if page.query selector QueryKind.byQuery then (selector, true)
  else if idShapeGuard selector && page.query ("#" ++ selector) QueryKind.byQuery then
    ("#" ++ selector, true)
  else if page.query (ariaContainsQuery selector) QueryKind.byQuery then
    (ariaContainsQuery selector, true)
  else if page.query (nameQuery selector) QueryKind.byQuery then (nameQuery selector, true)
  else if page.query (placeholderQuery selector) QueryKind.byQuery then
    (placeholderQuery selector, true)
  else if page.query (textXPathQuery selector) QueryKind.bySearch then
    (textXPathQuery selector, true)
  else if page.query (containsTextXPathQuery selector) QueryKind.bySearch then
    (containsTextXPathQuery selector, true)
  else (selector, false)

/-- The ordered strategy cascade as the specification describes it: the
eight (query, mode) pairs in priority order, with strategy 3 present
exactly when the given guard holds. -/
def cascadeList (s : String) (guard3 : Bool) : List (String × QueryKind) :=
  [(ariaQuery s, QueryKind.byQuery), (s, QueryKind.byQuery)]
    ++ (if guard3 then [("#" ++ s, QueryKind.byQuery)] else [])
    ++ [(ariaContainsQuery s, QueryKind.byQuery),
        (nameQuery s, QueryKind.byQuery),
        (placeholderQuery s, QueryKind.byQuery),
        (textXPathQuery s, QueryKind.bySearch),
        (containsTextXPathQuery s, QueryKind.bySearch)]

/-- First strategy of a cascade that matches at least one element; if none
matches, the original description is handed back together with `false`
(the NotFound outcome). -/
def firstHit (page : PageModel) (s : String) : List (String × QueryKind) → String × Bool
  | [] => (s, false)
  | (q, k) :: rest => if page.query q k then (q, true) else firstHit page s rest

/-- `true` when every query of the source's cascade fails on the page. -/
def allStrategyQueriesFail (page : PageModel) (s : String) : Bool :=
  (cascadeList s (idShapeGuard s)).all (fun qk => !(page.query qk.1 qk.2))

/-! ## ClickButton (examples/server/cdpbrowser/main.go) -/

/-- Oracle for the browser backend actions `ClickButton` issues:
`clickErr q k = none` models `chromedp.Run(ctx, chromedp.WaitVisible(q, k),
chromedp.Click(q, k))` succeeding, `some e` models it failing with error
text `e`. -/
structure ClickBackend where
  clickErr : String → QueryKind → Option String

/-- `ClickButton`'s own XPath fallback:
`fmt.Sprintf("//button[text()=\x22%s\x22] | //input[@value=\x22%s\x22]", selector, selector)`. -/
def clickButtonFallbackXPath (s : String) : String :=
  "//button[text()=\"" ++ s ++ "\"] | //input[@value=\"" ++ s ++ "\"]"

/-- The fallback tail of `ClickButton`: try the literal selector as CSS,
then the exact-text XPath; on success report the selector that worked, on
failure report an error result (`IsError: true`) naming the original
selector and the last error. -/
def clickButtonFallback (bk : ClickBackend) (selector : String) : String × Bool :=
  match bk.clickErr selector QueryKind.byQuery with
  | none => ("Clicked button: " ++ selector, false)
  | some _ =>
    match bk.clickErr (clickButtonFallbackXPath selector) QueryKind.bySearch with
    | none => ("Clicked button: " ++ clickButtonFallbackXPath selector, false)
    | some e => ("Error clicking button " ++ selector ++ ": " ++ e, true)

/-- Embedding of the `ClickButton` tool handler: resolve through the smart
selector; when that found a locator, click it with the mode chosen by its
shape (`//` means XPath); when the smart click fails or the resolver
returned NotFound, fall back to the literal description. The returned
flag is the result's `IsError` field. -/
def clickButton (page : PageModel) (bk : ClickBackend) (selector : String) : String × Bool :=
  let smart := findElementWithSmartSelector page selector
  if smart.2 then
    let kind := if strHasPrefix smart.1 "//" then QueryKind.bySearch else QueryKind.byQuery
    match bk.clickErr smart.1 kind with
    | none => ("Clicked button: " ++ smart.1, false)
    | some _ => clickButtonFallback bk selector
  else clickButtonFallback bk selector

/-! ## ChooseOption (examples/server/cdpbrowser/main.go) -/

/-- The `checked` value `ChooseOption` actually applies, translated from
```
checked := req.Params.Arguments.Checked
if !req.Params.Arguments.Checked && req.Params.Arguments.Checked == false \x7b
    checked = true // default to true if not specified
\x7d
```
(`Checked` is a plain Go `bool`, so an unset argument and an explicit
`false` both arrive here as `false`). -/
def chooseOptionEffectiveChecked (argChecked : Bool) : Bool :=
  if !argChecked && (argChecked == false) then true else argChecked

/-- Oracle for `chromedp.WaitVisible` + `chromedp.SetAttributeValue(selector,
"checked", ...)`: `none` is success, `some e` failure with error text `e`. -/
structure CheckBackend where
  setChecked : String → Bool → Option String

/-- Embedding of the `ChooseOption` tool handler. Returns the result text
and the `IsError` flag. -/
def chooseOption (bk : CheckBackend) (selector : String) (argChecked : Bool) : String × Bool :=
  let checked := chooseOptionEffectiveChecked argChecked
  match bk.setChecked selector checked with
  | some e =>
    ("Error setting option " ++ selector ++ " to " ++ (if checked then "true" else "false")
      ++ ": " ++ e, true)
  | none =>
    ("Option " ++ (if checked then "checked" else "unchecked") ++ ": " ++ selector, false)

/-! ## Tool catalog adapter (`convertToOpenAITools`, identical in the
autobrowser and voicebrowser clients of the unnamed source file) -/

/-- JSON values as they appear inside a tool's parameter schema after
`json.Unmarshal` into `map[string]interface\x7b\x7d`. -/
inductive SVal where
  | str (s : String)
  | objv (fields : List (String × SVal))
  | boolv (b : Bool)
  | nullv
  | raw (tag : String)

/-- What `json.Marshal(t.InputSchema)` followed by `json.Unmarshal` into a
string-keyed map can produce for a non-nil schema: a JSON object (the map),
JSON `null` (a nil map, no error), or a non-object document on which the
unmarshal into a map errors. -/
inductive SchemaEnc where
  | objEnc (fields : List (String × SVal))
  | nullEnc
  | badEnc

/-- An `mcp.Tool` as the adapter consumes it: name, description and the
`InputSchema` (nil = `none`) already classified by its JSON round-trip. -/
structure MCPTool where
  name : String
  description : String
  inputSchema : Option SchemaEnc

/-- An `openai.Tool` as the adapter produces it; `parameters = none` would
be a nil `Parameters` value handed to the model service. -/
structure OpenAITool where
  name : String
  description : String
  parameters : Option (List (String × SVal))

/-- The per-tool body of `convertToOpenAITools`'s loop after the
skip-checks: take the unmarshalled schema map (empty when it was nil),
inject `"type": "object"` and an empty `"properties"` map when the keys
are missing, and default an empty description. -/
def mkOpenAITool (t : MCPTool) (m : List (String × SVal)) : OpenAITool :=
  let m1 := if (m.lookup "type").isNone then m ++ [("type", SVal.str "object")] else m
  let m2 := if (m1.lookup "properties").isNone then m1 ++ [("properties", SVal.objv [])] else m1
  let d := if t.description = "" then "Use this tool to " ++ t.name else t.description
  { name := t.name, description := d, parameters := some m2 }

/-- One iteration of `convertToOpenAITools`: tools with a nil schema are
skipped, as are tools whose schema does not round-trip into a map; a nil
map is replaced by an empty one before the injections. -/
def convertTool (t : MCPTool) : Option OpenAITool :=
  match t.inputSchema with
  | none => none
  | some SchemaEnc.badEnc => none
  | some SchemaEnc.nullEnc => some (mkOpenAITool t [])
  | some (SchemaEnc.objEnc fields) => some (mkOpenAITool t fields)

/-- Embedding of `convertToOpenAITools`. -/
def convertToOpenAITools (ts : List MCPTool) : List OpenAITool :=
  ts.filterMap convertTool

/-! ## Tool result normalization (voicebrowser `executeMCPTool` vs
autobrowser `executeMCPToolWithArgs`) -/

/-- A content item of an MCP tool result: `mcp.TextContent`,
`mcp.ImageContent` (MIME type plus raw bytes), or any other content type
(carrying the Go type name the `%T` verb would print). -/
inductive MCPContentItem where
  | text (s : String)
  | image (mimeType : String) (data : List Nat)
  | otherContent (typeName : String)

/-- The voicebrowser executor's conversion of `result.Content` to a single
string: a `strings.Builder` fold that appends text verbatim, images as
`[Image: <mime>, <n> bytes]`, and unknown items as
`[Unknown content type: <T>]`. -/
def voicebrowserResultString (content : List MCPContentItem) : String :=
  content.foldl
    (fun acc c =>
      acc ++ match c with
        | MCPContentItem.text s => s
        | MCPContentItem.image mime data =>
          "[Image: " ++ mime ++ ", " ++ toString data.length ++ " bytes]"
        | MCPContentItem.otherContent tn => "[Unknown content type: " ++ tn ++ "]")
    ""

/-- The normalization as the specification words it: text items
concatenated in order, each binary image item rendered as the bracketed
summary. (The specification does not mention further content types; the
claims are stated on contents without them.) -/
def specNormalize : List MCPContentItem → String
  | [] => ""
  | MCPContentItem.text s :: rest => s ++ specNormalize rest
  | MCPContentItem.image mime data :: rest =>
    "[Image: " ++ mime ++ ", " ++ toString data.length ++ " bytes]" ++ specNormalize rest
  | MCPContentItem.otherContent _ :: rest => specNormalize rest

/-- `true` when the content sequence holds only text and image items. -/
def onlyTextAndImage (content : List MCPContentItem) : Bool :=
  content.all fun c =>
    match c with
    | MCPContentItem.otherContent _ => false
    | _ => true

/-- The backend's whole result as the autobrowser executor receives it. -/
structure CallToolResult where
  content : List MCPContentItem
  isError : Bool

/-- Standard base64 alphabet character for an index below 64. -/
def b64Char (n : Nat) : Char :=
  if n < 26 then Char.ofNat (65 + n)
  else if n < 52 then Char.ofNat (97 + (n - 26))
  else if n < 62 then Char.ofNat (48 + (n - 52))
  else if n = 62 then '+'
  else '/'

/-- Standard base64 encoding of a byte list (RFC 4648, with padding),
as `encoding/json` applies to Go `[]byte` fields. -/
def base64Encode : List Nat → String
  | [] => ""
  | [b0] =>
    String.mk [b64Char (b0 / 4), b64Char ((b0 % 4) * 16)] ++ "=="
  | [b0, b1] =>
    String.mk [b64Char (b0 / 4), b64Char ((b0 % 4) * 16 + b1 / 16),
               b64Char ((b1 % 16) * 4)] ++ "="
  | b0 :: b1 :: b2 :: rest =>
    String.mk [b64Char (b0 / 4), b64Char ((b0 % 4) * 16 + b1 / 16),
               b64Char ((b1 % 16) * 4 + b2 / 64), b64Char (b2 % 64)]
      ++ base64Encode rest

/-- A JSON string literal (the contents the claims use need no escaping). -/
def jsonStr (s : String) : String := "\"" ++ s ++ "\""

/-- Modelled from the spec: the autobrowser executor returns
`string(json.MarshalIndent(result, "", "  "))` — the indented JSON
serialization of the entire `mcp.CallToolResult`. The json codec and the
SDK's content marshallers are not under src/; following the spec's
interface shape `\x7bcontent: sequence of \x7btext\x7d | \x7bmime, bytes\x7d, isError\x7d`
(section 6), the result is serialized as a JSON object with a `content`
array (image bytes inlined in base64) and an `isError` flag. -/
def marshalIndentResult (r : CallToolResult) : String :=
  let item : MCPContentItem → String := fun c =>
    match c with
    | MCPContentItem.text s =>
      "    \x7b\n      \"type\": \"text\",\n      \"text\": " ++ jsonStr s ++ "\n    \x7d"
    | MCPContentItem.image mime data =>
      "    \x7b\n      \"type\": \"image\",\n      \"data\": " ++ jsonStr (base64Encode data)
        ++ ",\n      \"mimeType\": " ++ jsonStr mime ++ "\n    \x7d"
    | MCPContentItem.otherContent tn =>
      "    \x7b\n      \"type\": " ++ jsonStr tn ++ "\n    \x7d"
  "\x7b\n  \"content\": [\n" ++ String.intercalate ",\n" (r.content.map item)
    ++ "\n  ],\n  \"isError\": " ++ (if r.isError then "true" else "false") ++ "\n\x7d"

/-! ## Rate-limit retry loop (`sendChatRequest`, identical in the
autobrowser and voicebrowser clients) -/

/-- Outcome of one `client.CreateChatCompletion` call: a successful
response, an `openai.APIError` (with its Type, Code and Message fields),
or any other error. -/
inductive ChatOutcome where
  | success (resp : String)
  | apiError (etype ecode emsg : String)
  | otherError (emsg : String)
deriving DecidableEq, Repr

/-- `err == nil` after the call. -/
def ChatOutcome.isSuccess : ChatOutcome → Bool
  | ChatOutcome.success _ => true
  | _ => false

/-- The source's rate-limit classification:
`apiErr, ok := err.(*openai.APIError); ok && (apiErr.Type ==
"rate_limit_exceeded" || apiErr.Code == "rate_limit_exceeded")`. -/
def isRateLimitError : ChatOutcome → Bool
  | ChatOutcome.apiError t c _ => t == "rate_limit_exceeded" || c == "rate_limit_exceeded"
  | _ => false

/-- `maxRetries := 5` in the source. -/
def maxRetries : Nat := 5

/-- `backoffDuration := 2 * time.Second`, counted in seconds. -/
def backoffSeconds : Nat := 2

/-- The retry loop, from `retryCount` with the given number of further
loop iterations still allowed. `call k` is the outcome of the API call on
loop iteration `k`. Returns the final `(resp, err)` pair of the loop
together with the list of sleep durations (in seconds) performed via
`time.Sleep(backoffDuration * time.Duration(retryCount+1))`. -/
def retryLoopAux (call : Nat → ChatOutcome) : Nat → Nat → ChatOutcome × List Nat
  | retryCount, 0 =>
    let out := call retryCount
    if out.isSuccess then (out, [])
    else if isRateLimitError out then (out, [backoffSeconds * (retryCount + 1)])
    else (out, [])
  | retryCount, fuel + 1 =>
    let out := call retryCount
    if out.isSuccess then (out, [])
    else if isRateLimitError out then
      let rest := retryLoopAux call (retryCount + 1) fuel
      (rest.1, backoffSeconds * (retryCount + 1) :: rest.2)
    else (out, [])

/-- The whole `for retryCount := 0; retryCount < maxRetries; retryCount++`
loop. -/
def chatWithRetry (call : Nat → ChatOutcome) : ChatOutcome × List Nat :=
  retryLoopAux call 0 (maxRetries - 1)

/-- The error handling after the loop: a surviving `*openai.APIError` is
re-wrapped with its fields spelled out, any other error is returned
as-is, and a success hands the response onward. -/
def sendChatRequestCall (call : Nat → ChatOutcome) : Except String String :=
  match chatWithRetry call with
  | (ChatOutcome.success r, _) => Except.ok r
  | (ChatOutcome.apiError t c m, _) =>
    Except.error ("OpenAI API error: Type=" ++ t ++ ", Code=" ++ c ++ ", Message=" ++ m)
  | (ChatOutcome.otherError m, _) => Except.error m

/-! ## Conversation driver loop (`sendChatRequest`, autobrowser and
voicebrowser clients; the two differ only in iteration ceiling, prompt
text and the error-string format of a failed tool call) -/

/-- Message roles of the OpenAI chat API. -/
inductive Role where
  | system
  | user
  | assistant
  | tool
deriving DecidableEq, Repr

/-- An `openai.ToolCall` as the driver consumes it: ID, function name and
raw argument JSON. -/
structure ToolCallMsg where
  id : String
  name : String
  args : String
deriving DecidableEq, Repr

/-- An `openai.ChatCompletionMessage`: role, content, tool calls (only on
assistant messages) and the back-referencing `ToolCallID` (only on
tool-role messages). -/
structure ChatMessage where
  role : Role
  content : String
  toolCalls : List ToolCallMsg := []
  toolCallID : String := ""
deriving DecidableEq, Repr

/-- Oracles for the two external calls of one driver iteration: the model
service (given the accumulated messages, produce the assistant content and
tool calls of `resp.Choices[0].Message`, after the retry loop succeeded)
and the tool executor (`executeMCPTool`, already folded with the driver's
error formatting into the result text it appends). -/
structure DriverEnv where
  model : List ChatMessage → String × List ToolCallMsg
  execTool : String → String → String

/-- The tool-role messages one iteration appends: one per tool call, in
emission order, carrying the executor's result text and the originating
call ID. -/
def toolResponses (env : DriverEnv) (tcs : List ToolCallMsg) : List ChatMessage :=
  tcs.map fun tc =>
    { role := Role.tool, content := env.execTool tc.name tc.args, toolCallID := tc.id }

/-- The driver loop with the given iteration budget (`maxIterations` is 5
in the autobrowser client and 50 in the voicebrowser client): each
iteration appends the assistant message, stops if it carries no tool
calls, and otherwise appends the tool-role results and continues. The
returned list is the message history, so every intermediate reachable
history is `runConversation env msgs k` for some smaller budget `k`. -/
def runConversation (env : DriverEnv) (msgs : List ChatMessage) : Nat → List ChatMessage
  | 0 => msgs
  | fuel + 1 =>
    let am := env.model msgs
    let msgs1 := msgs ++ [{ role := Role.assistant, content := am.1, toolCalls := am.2 }]
    if am.2.isEmpty then msgs1
    else runConversation env (msgs1 ++ toolResponses env am.2) fuel

/-- The initial history: the system prompt and the user's task. -/
def initMessages (sys u : String) : List ChatMessage :=
  [{ role := Role.system, content := sys }, { role := Role.user, content := u }]

/-- Scan a history, threading the list of tool-call IDs still expected
from the most recent assistant message: an assistant message resets the
expectation to its own calls, a tool-role message must consume the next
expected ID, any other role clears it. `none` means some tool-role
message did not answer its immediately preceding assistant message's
calls in order. -/
def convRun : List ChatMessage → List String → Option (List String)
  | [], pending => some pending
  | m :: rest, pending =>
    match m.role with
    | Role.assistant => convRun rest (m.toolCalls.map ToolCallMsg.id)
    | Role.tool =>
      match pending with
      | [] => none
      | i :: ps => if m.toolCallID = i then convRun rest ps else none
    | _ => convRun rest []

/-- The conversation invariant: every tool-role message's `toolCallID`
matches the corresponding tool call of the immediately preceding
assistant message, in emission order. -/
def conversationWF (msgs : List ChatMessage) : Bool :=
  (convRun msgs []).isSome

/-! ## SHA-256 (`calculateHash` calls `crypto/sha256` and hex-encodes the
digest; the hash is implemented here so the replay engine's content-hash
comparison is the real one) -/

/-- Truncation to a 32-bit word. -/
def w32 (n : Nat) : Nat := n % 4294967296

/-- Right rotation of a 32-bit word. -/
def rotr32 (x n : Nat) : Nat := (x >>> n) + (x % 2 ^ n) * 2 ^ (32 - n)

/-- Bitwise complement of a 32-bit word. -/
def not32 (x : Nat) : Nat := x ^^^ 4294967295

/-- SHA-256 choice function. -/
def sha256Ch (x y z : Nat) : Nat := (x &&& y) ^^^ (not32 x &&& z)

/-- SHA-256 majority function. -/
def sha256Maj (x y z : Nat) : Nat := (x &&& y) ^^^ (x &&& z) ^^^ (y &&& z)

/-- SHA-256 big sigma 0. -/
def bigSigma0 (x : Nat) : Nat := rotr32 x 2 ^^^ rotr32 x 13 ^^^ rotr32 x 22

/-- SHA-256 big sigma 1. -/
def bigSigma1 (x : Nat) : Nat := rotr32 x 6 ^^^ rotr32 x 11 ^^^ rotr32 x 25

/-- SHA-256 small sigma 0. -/
def smallSigma0 (x : Nat) : Nat := rotr32 x 7 ^^^ rotr32 x 18 ^^^ (x >>> 3)

/-- SHA-256 small sigma 1. -/
def smallSigma1 (x : Nat) : Nat := rotr32 x 17 ^^^ rotr32 x 19 ^^^ (x >>> 10)

/-- The 64 SHA-256 round constants. -/
def sha256K : List Nat := [
  1116352408, 1899447441, 3049323471, 3921009573,
  961987163, 1508970993, 2453635748, 2870763221,
  3624381080, 310598401, 607225278, 1426881987,
  1925078388, 2162078206, 2614888103, 3248222580,
  3835390401, 4022224774, 264347078, 604807628,
  770255983, 1249150122, 1555081692, 1996064986,
  2554220882, 2821834349, 2952996808, 3210313671,
  3336571891, 3584528711, 113926993, 338241895,
  666307205, 773529912, 1294757372, 1396182291,
  1695183700, 1986661051, 2177026350, 2456956037,
  2730485921, 2820302411, 3259730800, 3345764771,
  3516065817, 3600352804, 4094571909, 275423344,
  430227734, 506948616, 659060556, 883997877,
  958139571, 1322822218, 1537002063, 1747873779,
  1955562222, 2024104815, 2227730452, 2361852424,
  2428436474, 2756734187, 3204031479, 3329325298]

/-- Eight 32-bit words: both the running hash value and the working
variables of the compression loop. -/
structure Sha8 where
  a : Nat
  b : Nat
  c : Nat
  d : Nat
  e : Nat
  f : Nat
  g : Nat
  hh : Nat

/-- SHA-256 initial hash value. -/
def sha256Init : Sha8 :=
  ⟨1779033703, 3144134277, 1013904242, 2773480762,
   1359893119, 2600822924, 528734635, 1541459225⟩

/-- One compression round with constant `k` and schedule word `w`. -/
def sha256Round (k w : Nat) (v : Sha8) : Sha8 :=
  let t1 := w32 (v.hh + bigSigma1 v.e + sha256Ch v.e v.f v.g + k + w)
  let t2 := w32 (bigSigma0 v.a + sha256Maj v.a v.b v.c)
  ⟨w32 (t1 + t2), v.a, v.b, v.c, w32 (v.d + t1), v.e, v.f, v.g⟩

/-- Big-endian bytes of a 64-bit length. -/
def beBytes8 (n : Nat) : List Nat :=
  [(n >>> 56) % 256, (n >>> 48) % 256, (n >>> 40) % 256, (n >>> 32) % 256,
   (n >>> 24) % 256, (n >>> 16) % 256, (n >>> 8) % 256, n % 256]

/-- SHA-256 padding: a `0x80` byte, zeros to 56 mod 64, and the bit length
as 8 big-endian bytes. -/
def padMessage (msg : List Nat) : List Nat :=
  let len := msg.length
  let zeros := (64 - (len + 9) % 64) % 64
  msg ++ 0x80 :: List.replicate zeros 0 ++ beBytes8 (len * 8)

/-- Big-endian 32-bit words from a byte list. -/
def bytesToWords : List Nat → List Nat
  | b0 :: b1 :: b2 :: b3 :: rest =>
    (b0 * 16777216 + b1 * 65536 + b2 * 256 + b3) :: bytesToWords rest
  | _ => []

/-- Extend the 16 message words to the 64-entry message schedule. -/
def extendSchedule (w0 : List Nat) : List Nat :=
  (List.range 48).foldl
    (fun w j =>
      let i := j + 16
      w ++ [w32 (w.getD (i - 16) 0 + smallSigma0 (w.getD (i - 15) 0)
                  + w.getD (i - 7) 0 + smallSigma1 (w.getD (i - 2) 0))])
    w0

/-- Compress one 64-byte chunk into the running hash value. -/
def processChunk (st : Sha8) (chunk : List Nat) : Sha8 :=
  let w := extendSchedule (bytesToWords chunk)
  let fin := (List.range 64).foldl
    (fun v i => sha256Round (sha256K.getD i 0) (w.getD i 0) v) st
  ⟨w32 (st.a + fin.a), w32 (st.b + fin.b), w32 (st.c + fin.c), w32 (st.d + fin.d),
   w32 (st.e + fin.e), w32 (st.f + fin.f), w32 (st.g + fin.g), w32 (st.hh + fin.hh)⟩

/-- Split a byte list into 64-byte chunks (fueled by the length, which
bounds the number of chunks). -/
def chunks64Aux : Nat → List Nat → List (List Nat)
  | 0, _ => []
  | _, [] => []
  | fuel + 1, l => l.take 64 :: chunks64Aux fuel (l.drop 64)

/-- All 64-byte chunks of a byte list. -/
def chunks64 (l : List Nat) : List (List Nat) := chunks64Aux l.length l

/-- The SHA-256 digest state of a message given as bytes. -/
def sha256Digest (msg : List Nat) : Sha8 :=
  (chunks64 (padMessage msg)).foldl processChunk sha256Init

/-- Lower-case hex digit. -/
def hexDigit (n : Nat) : Char :=
  if n < 10 then Char.ofNat (48 + n) else Char.ofNat (87 + n)

/-- Eight lower-case hex digits of a 32-bit word, as `hex.EncodeToString`
prints each word of the digest. -/
def hex8 (n : Nat) : String :=
  String.mk ((List.range 8).map fun i => hexDigit ((n >>> ((7 - i) * 4)) % 16))

/-- UTF-8 encoding of a code point, as Go's `[]byte(string)` produces. -/
def utf8EncodeChar (c : Nat) : List Nat :=
  if c < 128 then [c]
  else if c < 2048 then [192 + (c >>> 6), 128 + (c % 64)]
  else if c < 65536 then [224 + (c >>> 12), 128 + ((c >>> 6) % 64), 128 + (c % 64)]
  else [240 + (c >>> 18), 128 + ((c >>> 12) % 64), 128 + ((c >>> 6) % 64), 128 + (c % 64)]

/-- The bytes of a string, UTF-8 encoded. -/
def utf8Bytes (s : String) : List Nat :=
  s.data.foldr (fun c acc => utf8EncodeChar c.toNat ++ acc) []

/-- Embedding of `calculateHash`: the hex-encoded SHA-256 digest of the
string's bytes. -/
def calculateHash (s : String) : String :=
  let d := sha256Digest (utf8Bytes s)
  hex8 d.a ++ hex8 d.b ++ hex8 d.c ++ hex8 d.d ++ hex8 d.e ++ hex8 d.f ++ hex8 d.g ++ hex8 d.hh

/-! ## Learning/replay engine (`executeStoredCommands`, autobrowser
client) -/

/-- A tool's argument mapping (`map[string]interface\x7b\x7d`), observed
as an association of parameter names to values. -/
def Args := List (String × String)
deriving DecidableEq

/-- A `CommandInvocation` ledger entry: tool name, arguments, result text
and timestamp. -/
structure CommandInvocation where
  toolName : String
  arguments : Args
  result : String
  timestamp : String
deriving DecidableEq

/-- Oracles for the replay engine's external calls.
* `exec` models `executeMCPToolWithArgs` (`Except.error` is a non-nil
  error, `Except.ok` the result string);
* `parseIsError r` models `json.Unmarshal([]byte(r), &resultMap)`
  succeeding with a map whose `"isError"` entry is the boolean `true`;
* `repair lastResult toolName origResult origArgs` models the whole
  OpenAI analysis call (build the prompt from the previous command's
  updated snapshot, the failing tool's name, its originally recorded
  result and its arguments; call `CreateChatCompletion`; parse the answer
  as a JSON argument map) — `none` when the call errors, returns no
  choice, or the answer does not parse;
* `now` models `time.Now().Format(time.RFC3339)`. -/
structure ReplayEnv where
  exec : String → Args → Except String String
  parseIsError : String → Bool
  repair : String → String → String → Args → Option Args
  now : String

/-- The value of the `result` variable after the repair block: when the
fresh result carries the backend error flag and the new ledger already
has a last entry with a non-empty result, ask the model for corrected
arguments and re-execute once, adopting the retry result only when the
retry succeeds; in every other case the fresh result stands. -/
def freshAfterRepair (env : ReplayEnv) (acc : List CommandInvocation)
    (cmd : CommandInvocation) (result0 : String) : String :=
  if env.parseIsError result0 then
    match acc.getLast? with
    | some lastCmd =>
      if lastCmd.result = "" then result0
      else
        match env.repair lastCmd.result cmd.toolName cmd.result cmd.arguments with
        | some newArgs =>
          match env.exec cmd.toolName newArgs with
          | Except.ok retryResult => retryResult
          | Except.error _ => result0
        | none => result0
    | none => result0
  else result0

/-- `true` exactly when the repair block reaches the
`CreateChatCompletion` call for this entry. -/
def repairInvoked (env : ReplayEnv) (acc : List CommandInvocation)
    (cmd : CommandInvocation) (result0 : String) : Bool :=
  env.parseIsError result0 &&
    (match acc.getLast? with
     | some lastCmd => !(lastCmd.result == "")
     | none => false)

/-- One entry of the replay loop, given the new ledger built so far
(`updatedLearning.Commands`): a failed execution keeps the original entry
unchanged; a successful one goes through the repair block and the
content-hash comparison, keeping the original result text on equal hashes
and adopting the fresh result otherwise, in both cases with a fresh
timestamp and the original tool name and arguments. -/
def replayStep (env : ReplayEnv) (acc : List CommandInvocation)
    (cmd : CommandInvocation) : CommandInvocation :=
  match env.exec cmd.toolName cmd.arguments with
  | Except.error _ => cmd
  | Except.ok result0 =>
    let result := freshAfterRepair env acc cmd result0
    if calculateHash cmd.result = calculateHash result then
      { toolName := cmd.toolName, arguments := cmd.arguments,
        result := cmd.result, timestamp := env.now }
    else
      { toolName := cmd.toolName, arguments := cmd.arguments,
        result := result, timestamp := env.now }

/-- The replay loop over the stored commands, accumulating the new
ledger. -/
def replayAllAux (env : ReplayEnv) (acc : List CommandInvocation) :
    List CommandInvocation → List CommandInvocation
  | [] => acc
  | c :: rest => replayAllAux env (acc ++ [replayStep env acc c]) rest

/-- The new ledger a replay pass over the given commands produces. -/
def replayAll (env : ReplayEnv) (cmds : List CommandInvocation) : List CommandInvocation :=
  replayAllAux env [] cmds

/-- The ledger file as `executeStoredCommands` observes it: missing
(`os.IsNotExist`), unreadable (`os.ReadFile` error), unparsable
(`json.Unmarshal` error), or parsed into its command list. -/
inductive LedgerFile where
  | missing
  | unreadable (e : String)
  | unparsable (e : String)
  | parsed (cmds : List CommandInvocation)

/-- Embedding of `executeStoredCommands`'s observable outcome: the
`(bool, error)` return pair, and the new ledger (`updatedLearning`) when a
replay pass actually ran (`none` on every early return). -/
def executeStoredCommands (env : ReplayEnv) (filename : String) (file : LedgerFile) :
    (Bool × Option String) × Option (List CommandInvocation) :=
  match file with
  | LedgerFile.missing => ((false, none), none)
  | LedgerFile.unreadable e => ((false, some ("error reading " ++ filename ++ ": " ++ e)), none)
  | LedgerFile.unparsable e => ((false, some ("error parsing " ++ filename ++ ": " ++ e)), none)
  | LedgerFile.parsed cmds =>
    if cmds.isEmpty then ((false, none), none)
    else ((true, none), some (replayAll env cmds))

/-! ## Concrete instances used by the claim witnesses -/

/-- Page used to refute C1's guard condition: exactly the query `#a#b`
matches an element. -/
def c1Page : PageModel := ⟨fun q _ => q == "#a#b"⟩

/-- A page with both an element labelled "Search" and elements whose
visible text is "Search". -/
def searchPage : PageModel :=
  ⟨fun q k =>
    q == ariaQuery "Search"
      || (k == QueryKind.bySearch
            && (q == textXPathQuery "Search" || q == containsTextXPathQuery "Search"))⟩

/-- A page on which no query matches anything. -/
def c5Page : PageModel := ⟨fun _ _ => false⟩

/-- A backend for which every click attempt fails. -/
def c5Backend : ClickBackend := ⟨fun _ _ => some "no such element"⟩

/-- A catalog entry whose schema has neither a `type` nor a `properties`
field. -/
def demoTool : MCPTool :=
  { name := "browser_snapshot", description := "", inputSchema := some (SchemaEnc.objEnc []) }

/-- The adapter's output for `demoTool`. -/
def demoConverted : OpenAITool := mkOpenAITool demoTool []

/-- An API that is rate limited on the first two attempts and succeeds on
the third. -/
def demoRateLimitedCall : Nat → ChatOutcome :=
  fun n => if n < 2 then ChatOutcome.apiError "rate_limit_exceeded" "" "" else
    ChatOutcome.success "done"

/-- Replay environment whose execution reproduces the recorded result. -/
def c2EnvEq : ReplayEnv :=
  { exec := fun _ _ => Except.ok "same", parseIsError := fun _ => false,
    repair := fun _ _ _ _ => none, now := "2025-01-01T00:00:01Z" }

/-- An entry whose recorded result matches the fresh execution. -/
def c2CmdEq : CommandInvocation :=
  { toolName := "navigate", arguments := [("url", "https://example.com")],
    result := "same", timestamp := "2025-01-01T00:00:00Z" }

/-- Replay environment whose execution diverges from the recorded result,
with no backend error flag. -/
def c2EnvNe : ReplayEnv :=
  { exec := fun _ _ => Except.ok "new", parseIsError := fun _ => false,
    repair := fun _ _ _ _ => none, now := "2025-01-01T00:00:01Z" }

/-- An entry whose recorded result differs byte-for-byte from the fresh
execution. -/
def c2CmdNe : CommandInvocation :=
  { toolName := "navigate", arguments := [("url", "https://example.com")],
    result := "old", timestamp := "2025-01-01T00:00:00Z" }

/-- Replay environment whose execution always fails. -/
def c7Env : ReplayEnv :=
  { exec := fun _ _ => Except.error "tool not found: navigate",
    parseIsError := fun _ => false, repair := fun _ _ _ _ => none, now := "T1" }

/-- A recorded entry for the failing environment. -/
def c7Cmd : CommandInvocation :=
  { toolName := "navigate", arguments := [("url", "x")], result := "r", timestamp := "T0" }

/-! ## Shared lemmas -/

/-- The source resolver equals the first-match cascade over the eight
strategies in priority order, with strategy 3 guarded by the source's
identifier-shape test. -/
theorem resolver_eq_cascade (page : PageModel) (s : String) :
    findElementWithSmartSelector page s = firstHit page s (cascadeList s (idShapeGuard s)) := by
  cases hg : idShapeGuard s <;>
    simp [findElementWithSmartSelector, cascadeList, firstHit, hg]

/-- A cascade in which every query fails resolves to the NotFound
outcome. -/
theorem firstHit_all_fail (page : PageModel) (s : String) :
    ∀ l : List (String × QueryKind),
      l.all (fun qk => !(page.query qk.1 qk.2)) = true → firstHit page s l = (s, false) := by
  intro l hl
  induction l with
  | nil => rfl
  | cons qk rest ih =>
    simp only [List.all_cons, Bool.and_eq_true, Bool.not_eq_true'] at hl
    simp [firstHit, hl.1, ih hl.2]

/-! ## Claim C1 -/

/-- C1 counterexample: the input `a#b` contains `#`, so by the claim the
identifier-anchored retry must not be attempted and (since every other
strategy's query fails on this page) resolution would end NotFound; the
code's guard only tests the leading character, attempts the retry, and
returns `#a#b` as found. -/
theorem C1_counterexample :
    (strContainsChar "a#b" '#') = true
    ∧ findElementWithSmartSelector c1Page "a#b" = ("#a#b", true)
    ∧ firstHit c1Page "a#b" (cascadeList "a#b" (specIdGuard "a#b")) = ("a#b", false) := by
  decide

/-- C1 (amended): the resolver tries exactly the eight strategies in the
fixed priority order and returns the first one that matches, with the
strategy-3 retry attempted if and only if the input does not start with
`#` and contains none of `.`, `[`, or a space; in particular, whenever
the exact aria-label query matches (e.g. an element labelled "Search"),
its locator is returned, never a later strategy's text match. -/
theorem C1_resolver_priority (page : PageModel) (s : String) :
    findElementWithSmartSelector page s = firstHit page s (cascadeList s (idShapeGuard s))
    ∧ (page.query (ariaQuery "Search") QueryKind.byQuery = true →
        findElementWithSmartSelector page "Search" = (ariaQuery "Search", true)) := by
  refine ⟨resolver_eq_cascade page s, fun h => ?_⟩
  simp [findElementWithSmartSelector, h]

/-- C1 witness: on a page carrying both an accessible-label "Search"
element and visible-text "Search" elements, the resolver returns the
accessible-label locator. -/
theorem C1_witness :
    findElementWithSmartSelector searchPage "Search" = (ariaQuery "Search", true)
    ∧ findElementWithSmartSelector searchPage "Search"
        = firstHit searchPage "Search" (cascadeList "Search" (idShapeGuard "Search")) :=
  ⟨(C1_resolver_priority searchPage "Search").2 (by decide),
   (C1_resolver_priority searchPage "Search").1⟩

/-! ## Claim C5 -/

/-- C5: when every strategy's query fails to match, the resolver returns
the NotFound outcome with the original description (no substitute
locator), and `ClickButton` then passes the literal description to the
backend: a backend success clicks it, and failure of both the literal
selector and the final exact-text fallback produces the descriptive
error result naming the original description. -/
theorem C5_notfound_fallback (page : PageModel) (bk : ClickBackend) (s : String)
    (hfail : allStrategyQueriesFail page s = true) :
    findElementWithSmartSelector page s = (s, false)
    ∧ (bk.clickErr s QueryKind.byQuery = none →
        clickButton page bk s = ("Clicked button: " ++ s, false))
    ∧ (∀ e1 e2, bk.clickErr s QueryKind.byQuery = some e1 →
        bk.clickErr (clickButtonFallbackXPath s) QueryKind.bySearch = some e2 →
        clickButton page bk s = ("Error clicking button " ++ s ++ ": " ++ e2, true)) := by
  have hres : findElementWithSmartSelector page s = (s, false) := by
    rw [resolver_eq_cascade page s]
    exact firstHit_all_fail page s _ hfail
  refine ⟨hres, fun hok => ?_, fun e1 e2 h1 h2 => ?_⟩
  · simp [clickButton, hres, clickButtonFallback, hok]
  · simp [clickButton, hres, clickButtonFallback, h1, h2]

/-- C5 witness: `#login-btn` on a page with no match falls through every
strategy and the caller's literal fallback fails with the descriptive
error. -/
theorem C5_witness :
    clickButton c5Page c5Backend "#login-btn"
      = ("Error clicking button #login-btn: no such element", true) :=
  (C5_notfound_fallback c5Page c5Backend "#login-btn" (by decide)).2.2
    "no such element" "no such element" rfl rfl

/-! ## Claim C8 -/

/-- C8: the self-referential default check in `ChooseOption` fires for
every `false` boolean, so the effective checked value applied to the
element is always `true` — a caller-supplied `false` is overridden, and
the whole handler ignores its `checked` argument. -/
theorem C8_checked_always_true :
    chooseOptionEffectiveChecked false = true
    ∧ (∀ b, chooseOptionEffectiveChecked b = true)
    ∧ (∀ bk sel b, chooseOption bk sel b = chooseOption bk sel true) := by
  refine ⟨rfl, ?_, ?_⟩
  · intro b; cases b <;> rfl
  · intro bk sel b; cases b <;> rfl

/-! ## Claim C6 -/

/-- Association lookup ignores a right part that is shadowed. -/
theorem lookup_append_left (k : String) (l1 l2 : List (String × SVal))
    (h : (l1.lookup k).isSome = true) : (l1 ++ l2).lookup k = l1.lookup k := by
  induction l1 with
  | nil => simp at h
  | cons p rest ih =>
    by_cases hk : k == p.1
    · simp [List.lookup, hk]
    · simp only [List.lookup, List.cons_append] at h ⊢
      simp only [hk] at h ⊢
      exact ih h

/-- Association lookup falls through an unmatching left part. -/
theorem lookup_append_right (k : String) (l1 l2 : List (String × SVal))
    (h : l1.lookup k = none) : (l1 ++ l2).lookup k = l2.lookup k := by
  induction l1 with
  | nil => simp
  | cons p rest ih =>
    by_cases hk : k == p.1
    · simp [List.lookup, hk] at h
    · simp only [List.lookup, List.cons_append] at h ⊢
      simp only [hk] at h ⊢
      exact ih h

/-- The single-tool conversion always yields a schema map with a `type`
and a `properties` key, injecting `"object"` and an empty map when they
were missing. -/
theorem mkOpenAITool_parameters (t : MCPTool) (m : List (String × SVal)) :
    ∃ pm, (mkOpenAITool t m).parameters = some pm
      ∧ (pm.lookup "type").isSome = true
      ∧ (pm.lookup "properties").isSome = true
      ∧ (m.lookup "type" = none → pm.lookup "type" = some (SVal.str "object"))
      ∧ (m.lookup "properties" = none → pm.lookup "properties" = some (SVal.objv [])) := by
  cases hty : m.lookup "type" with
  | none =>
    have hm1ty : (m ++ [("type", SVal.str "object")]).lookup "type" = some (SVal.str "object") := by
      rw [lookup_append_right _ _ _ hty]; rfl
    cases hpr : m.lookup "properties" with
    | none =>
      have hm1pr : (m ++ [("type", SVal.str "object")]).lookup "properties" = none := by
        rw [lookup_append_right _ _ _ hpr]; rfl
      refine ⟨m ++ [("type", SVal.str "object")] ++ [("properties", SVal.objv [])],
        by simp [mkOpenAITool, hty, hm1pr], ?_, ?_, fun _ => ?_, fun _ => ?_⟩
      · rw [lookup_append_left _ _ _ (by simp [hm1ty])]; simp [hm1ty]
      · rw [lookup_append_right _ _ _ hm1pr]; rfl
      · rw [lookup_append_left _ _ _ (by simp [hm1ty])]; exact hm1ty
      · rw [lookup_append_right _ _ _ hm1pr]; rfl
    | some v =>
      have hm1pr : (m ++ [("type", SVal.str "object")]).lookup "properties" = some v := by
        rw [lookup_append_left _ _ _ (by simp [hpr])]; exact hpr
      refine ⟨m ++ [("type", SVal.str "object")],
        by simp [mkOpenAITool, hty, hm1pr], ?_, ?_, fun _ => ?_, fun hc => ?_⟩
      · simp [hm1ty]
      · simp [hm1pr]
      · exact hm1ty
      · exact Option.noConfusion hc
  | some v =>
    cases hpr : m.lookup "properties" with
    | none =>
      refine ⟨m ++ [("properties", SVal.objv [])],
        by simp [mkOpenAITool, hty, hpr], ?_, ?_, fun hc => ?_, fun _ => ?_⟩
      · rw [lookup_append_left _ _ _ (by simp [hty])]; simp [hty]
      · rw [lookup_append_right _ _ _ hpr]; rfl
      · exact Option.noConfusion hc
      · rw [lookup_append_right _ _ _ hpr]; rfl
    | some w =>
      refine ⟨m, by simp [mkOpenAITool, hty, hpr], ?_, ?_, fun hc => ?_, fun hc => ?_⟩
      · simp [hty]
      · simp [hpr]
      · exact Option.noConfusion hc
      · exact Option.noConfusion hc

/-- C6: every tool the adapter emits carries a non-null parameter schema
containing a `type` key and a `properties` key; when the source schema
lacked them, `"object"` and an empty properties map were injected. -/
theorem C6_schema_repair (ts : List MCPTool) (ot : OpenAITool)
    (h : ot ∈ convertToOpenAITools ts) :
    ∃ pm, ot.parameters = some pm
      ∧ (pm.lookup "type").isSome = true
      ∧ (pm.lookup "properties").isSome = true
      ∧ ∀ t fields, convertTool t = some ot →
          t.inputSchema = some (SchemaEnc.objEnc fields) →
          (fields.lookup "type" = none → pm.lookup "type" = some (SVal.str "object"))
          ∧ (fields.lookup "properties" = none →
              pm.lookup "properties" = some (SVal.objv [])) := by
  obtain ⟨t0, _, hconv0⟩ := List.mem_filterMap.mp h
  have hmk : ∃ m0, ot = mkOpenAITool t0 m0 := by
    unfold convertTool at hconv0
    cases hs : t0.inputSchema with
    | none => rw [hs] at hconv0; cases hconv0
    | some se =>
      rw [hs] at hconv0
      cases se with
      | objEnc fields => exact ⟨fields, (Option.some.inj hconv0).symm⟩
      | nullEnc => exact ⟨[], (Option.some.inj hconv0).symm⟩
      | badEnc => cases hconv0
  obtain ⟨m0, hm0⟩ := hmk
  obtain ⟨pm, hpm, hty, hpr, _, _⟩ := mkOpenAITool_parameters t0 m0
  refine ⟨pm, by rw [hm0]; exact hpm, hty, hpr, fun t fields hconv hschema => ?_⟩
  have : mkOpenAITool t fields = ot := by
    unfold convertTool at hconv
    rw [hschema] at hconv
    exact Option.some.inj hconv
  obtain ⟨pm2, hpm2, _, _, hinjty, hinjpr⟩ := mkOpenAITool_parameters t fields
  rw [this, hm0, hpm] at hpm2
  have hpm2' : pm2 = pm := (Option.some.inj hpm2).symm
  exact ⟨fun hc => hpm2' ▸ hinjty hc, fun hc => hpm2' ▸ hinjpr hc⟩

/-- C6 witness: the converted demo tool's schema received both injected
keys. -/
theorem C6_witness :
    ∃ pm, demoConverted.parameters = some pm
      ∧ (pm.lookup "type").isSome = true
      ∧ (pm.lookup "properties").isSome = true := by
  obtain ⟨pm, h1, h2, h3, _⟩ :=
    C6_schema_repair [demoTool] demoConverted
      (show demoConverted ∈ convertToOpenAITools [demoTool] from List.mem_singleton.mpr rfl)
  exact ⟨pm, h1, h2, h3⟩

/-! ## Claim C9 -/

/-- The voicebrowser fold, generalized over the builder's prior
contents. -/
theorem voicebrowser_foldl (content : List MCPContentItem)
    (h : onlyTextAndImage content = true) :
    ∀ acc : String,
      content.foldl
        (fun acc c =>
          acc ++ match c with
            | MCPContentItem.text s => s
            | MCPContentItem.image mime data =>
              "[Image: " ++ mime ++ ", " ++ toString data.length ++ " bytes]"
            | MCPContentItem.otherContent tn => "[Unknown content type: " ++ tn ++ "]")
        acc = acc ++ specNormalize content := by
  induction content with
  | nil => intro acc; simp [specNormalize]
  | cons c rest ih =>
    intro acc
    simp only [onlyTextAndImage, List.all_cons, Bool.and_eq_true] at h
    have hrest := ih h.2
    cases c with
    | text s =>
      rw [List.foldl_cons, hrest]
      exact String.append_assoc acc s (specNormalize rest)
    | image mime data =>
      rw [List.foldl_cons, hrest]
      exact String.append_assoc acc _ (specNormalize rest)
    | otherContent tn => simp at h

/-- C9 (amended): on contents of text and binary-image items, the
voicebrowser executor's normalization concatenates the text items in
order and renders each image item as `[Image: <mime>, <n> bytes]`. -/
theorem C9_voicebrowser_normalization (content : List MCPContentItem)
    (h : onlyTextAndImage content = true) :
    voicebrowserResultString content = specNormalize content := by
  unfold voicebrowserResultString
  rw [voicebrowser_foldl content h ""]
  simp

/-- C9 counterexample: the autobrowser executor does not produce the
normalization the claim describes — for a result holding a single image
item it returns the indented JSON serialization of the whole result
object, not the bracketed summary. -/
theorem C9_counterexample :
    marshalIndentResult { content := [MCPContentItem.image "image/png" [137, 80]],
                          isError := false }
      ≠ specNormalize [MCPContentItem.image "image/png" [137, 80]] := by
  decide

/-- C9 witness: a concrete mixed text/image content normalized by the
voicebrowser executor. -/
theorem C9_witness :
    voicebrowserResultString
        [MCPContentItem.text "ok: ", MCPContentItem.image "image/png" [1, 2, 3]]
      = specNormalize [MCPContentItem.text "ok: ", MCPContentItem.image "image/png" [1, 2, 3]] :=
  C9_voicebrowser_normalization _ (by decide)

/-! ## Claim C3 -/

/-- A rate-limit-classified outcome is not a success. -/
theorem rateLimit_not_success (o : ChatOutcome) (h : isRateLimitError o = true) :
    o.isSuccess = false := by
  cases o <;> simp_all [isRateLimitError, ChatOutcome.isSuccess]

/-- A rate-limited attempt with further iterations left sleeps its linear
backoff and continues with the next attempt. -/
theorem retry_step_rl (call : Nat → ChatOutcome) (rc f : Nat)
    (h : isRateLimitError (call rc) = true) :
    retryLoopAux call rc (f + 1)
      = ((retryLoopAux call (rc + 1) f).1,
         backoffSeconds * (rc + 1) :: (retryLoopAux call (rc + 1) f).2) := by
  simp [retryLoopAux, rateLimit_not_success _ h, h]

/-- A rate-limited final attempt sleeps its backoff and leaves the loop
with the error. -/
theorem retry_last_rl (call : Nat → ChatOutcome) (rc : Nat)
    (h : isRateLimitError (call rc) = true) :
    retryLoopAux call rc 0 = (call rc, [backoffSeconds * (rc + 1)]) := by
  simp [retryLoopAux, rateLimit_not_success _ h, h]

/-- A successful attempt leaves the loop at once. -/
theorem retry_step_success (call : Nat → ChatOutcome) (rc f : Nat) (r : String)
    (h : call rc = ChatOutcome.success r) :
    retryLoopAux call rc f = (ChatOutcome.success r, []) := by
  cases f <;> simp [retryLoopAux, h, ChatOutcome.isSuccess]

/-- A non-rate-limit failure leaves the loop at once, without sleeping. -/
theorem retry_step_fatal (call : Nat → ChatOutcome) (rc f : Nat)
    (hs : (call rc).isSuccess = false) (h : isRateLimitError (call rc) = false) :
    retryLoopAux call rc f = (call rc, []) := by
  cases f <;> simp [retryLoopAux, hs, h]

/-- C3: rate-limit failures on attempts 1 and 2 followed by success on
attempt 3 make the retry loop sleep `backoff×1` then `backoff×2` and
return the success (the two failures are not fatal); a non-rate-limit
failure on the first attempt stops retrying immediately and surfaces the
error; and rate-limit failures on every attempt stop after the fixed
ceiling of `maxRetries` attempts with the linearly increasing backoff
sleeps. -/
theorem C3_rate_limit_retry :
    (∀ call r, isRateLimitError (call 0) = true → isRateLimitError (call 1) = true →
      call 2 = ChatOutcome.success r →
      chatWithRetry call = (ChatOutcome.success r, [backoffSeconds * 1, backoffSeconds * 2])
        ∧ sendChatRequestCall call = Except.ok r)
    ∧ (∀ call m, call 0 = ChatOutcome.otherError m →
      chatWithRetry call = (ChatOutcome.otherError m, [])
        ∧ sendChatRequestCall call = Except.error m)
    ∧ (∀ call t c m, call 0 = ChatOutcome.apiError t c m → isRateLimitError (call 0) = false →
      sendChatRequestCall call
        = Except.error ("OpenAI API error: Type=" ++ t ++ ", Code=" ++ c ++ ", Message=" ++ m))
    ∧ (∀ call, (∀ k, k < maxRetries → isRateLimitError (call k) = true) →
      chatWithRetry call
        = (call 4, [backoffSeconds * 1, backoffSeconds * 2, backoffSeconds * 3,
                    backoffSeconds * 4, backoffSeconds * 5])) := by
  refine ⟨?_, ?_, ?_, ?_⟩
  · intro call r h0 h1 h2
    have hret : chatWithRetry call
        = (ChatOutcome.success r, [backoffSeconds * 1, backoffSeconds * 2]) := by
      show retryLoopAux call 0 4 = _
      rw [show (4 : Nat) = 3 + 1 from rfl, retry_step_rl call 0 3 h0,
        show (3 : Nat) = 2 + 1 from rfl, retry_step_rl call 1 2 h1,
        retry_step_success call 2 2 r h2]
    exact ⟨hret, by simp [sendChatRequestCall, hret]⟩
  · intro call m h0
    have hret : chatWithRetry call = (ChatOutcome.otherError m, []) := by
      show retryLoopAux call 0 4 = _
      rw [retry_step_fatal call 0 4 (by rw [h0]; rfl) (by rw [h0]; rfl), h0]
    exact ⟨hret, by simp [sendChatRequestCall, hret]⟩
  · intro call t c m h0 hnr
    have hret : chatWithRetry call = (ChatOutcome.apiError t c m, []) := by
      show retryLoopAux call 0 4 = _
      rw [retry_step_fatal call 0 4 (by rw [h0]; rfl) hnr, h0]
    simp [sendChatRequestCall, hret]
  · intro call hall
    have h0 := hall 0 (by simp [maxRetries])
    have h1 := hall 1 (by simp [maxRetries])
    have h2 := hall 2 (by simp [maxRetries])
    have h3 := hall 3 (by simp [maxRetries])
    have h4 := hall 4 (by simp [maxRetries])
    show retryLoopAux call 0 4 = _
    rw [show (4 : Nat) = 3 + 1 from rfl, retry_step_rl call 0 3 h0,
      show (3 : Nat) = 2 + 1 from rfl, retry_step_rl call 1 2 h1,
      show (2 : Nat) = 1 + 1 from rfl, retry_step_rl call 2 1 h2,
      show (1 : Nat) = 0 + 1 from rfl, retry_step_rl call 3 0 h3,
      retry_last_rl call 4 h4]

/-- C3 witness: the demo call sleeps 2 then 4 seconds and succeeds on the
third attempt. -/
theorem C3_witness :
    chatWithRetry demoRateLimitedCall = (ChatOutcome.success "done", [2, 4])
    ∧ sendChatRequestCall demoRateLimitedCall = Except.ok "done" := by
  have h := C3_rate_limit_retry.1 demoRateLimitedCall "done" (by decide) (by decide) (by decide)
  exact ⟨h.1, h.2⟩

/-! ## Claim C4 -/

/-- The invariant scan distributes over appending. -/
theorem convRun_append (xs ys : List ChatMessage) :
    ∀ p, convRun (xs ++ ys) p = (convRun xs p).bind fun q => convRun ys q := by
  induction xs with
  | nil => intro p; simp [convRun]
  | cons m rest ih =>
    intro p
    cases hr : m.role with
    | assistant => simp [convRun, hr, ih]
    | tool =>
      cases p with
      | nil => simp [convRun, hr]
      | cons i ps =>
        by_cases hid : m.toolCallID = i
        · simp [convRun, hr, hid, ih]
        · simp [convRun, hr, hid]
    | system => simp [convRun, hr, ih]
    | user => simp [convRun, hr, ih]

/-- The tool responses of one iteration consume exactly the pending IDs
the assistant message installed. -/
theorem convRun_toolResponses (env : DriverEnv) (tcs : List ToolCallMsg) :
    convRun (toolResponses env tcs) (tcs.map ToolCallMsg.id) = some [] := by
  induction tcs with
  | nil => simp [toolResponses, convRun]
  | cons tc rest ih =>
    simp only [toolResponses] at ih ⊢
    simp [convRun, ih]

/-- One iteration's appended block (assistant message plus its tool-role
responses) passes the scan from any pending state, ending with no pending
IDs. -/
theorem convRun_iteration_block (env : DriverEnv) (content : String)
    (tcs : List ToolCallMsg) :
    ∀ p, convRun
      ({ role := Role.assistant, content := content, toolCalls := tcs : ChatMessage}
        :: toolResponses env tcs) p = some [] := by
  intro p
  simp [convRun, convRun_toolResponses env tcs]

/-- Every history the driver loop reaches from a well-formed history (one
whose scan ends with no pending IDs) is itself well-formed. -/
theorem runConversation_wf (env : DriverEnv) :
    ∀ (fuel : Nat) (msgs : List ChatMessage), convRun msgs [] = some [] →
      convRun (runConversation env msgs fuel) [] = some [] := by
  intro fuel
  induction fuel with
  | zero => intro msgs h; exact h
  | succ f ih =>
    intro msgs h
    show convRun
      (let am := env.model msgs
       let msgs1 := msgs ++ [{ role := Role.assistant, content := am.1, toolCalls := am.2 }]
       if am.2.isEmpty then msgs1
       else runConversation env (msgs1 ++ toolResponses env am.2) f) [] = some []
    by_cases he : (env.model msgs).2.isEmpty
    · have : (env.model msgs).2 = [] := List.isEmpty_iff.mp he
      simp only [he, if_true]
      rw [convRun_append, h]
      simp [convRun, this]
    · simp only [he, if_false]
      apply ih
      rw [List.append_assoc, List.singleton_append, convRun_append, h]
      exact convRun_iteration_block env (env.model msgs).1 (env.model msgs).2 []

/-- Each driver step only appends to the history. -/
theorem runConversation_extends (env : DriverEnv) :
    ∀ (fuel : Nat) (msgs : List ChatMessage),
      ∃ t, runConversation env msgs fuel = msgs ++ t := by
  intro fuel
  induction fuel with
  | zero => intro msgs; exact ⟨[], by simp [runConversation]⟩
  | succ f ih =>
    intro msgs
    by_cases he : (env.model msgs).2.isEmpty
    · exact ⟨[{ role := Role.assistant, content := (env.model msgs).1,
                toolCalls := (env.model msgs).2 }], by simp [runConversation, he]⟩
    · obtain ⟨t, ht⟩ := ih
        (msgs ++ [{ role := Role.assistant, content := (env.model msgs).1,
                    toolCalls := (env.model msgs).2 }] ++ toolResponses env (env.model msgs).2)
      refine ⟨[{ role := Role.assistant, content := (env.model msgs).1,
                 toolCalls := (env.model msgs).2 }] ++ toolResponses env (env.model msgs).2 ++ t,
        ?_⟩
      simp only [runConversation, he, if_false, Bool.false_eq_true]
      rw [ht]
      simp [List.append_assoc]

/-- Successive iteration budgets only extend the history further. -/
theorem runConversation_mono (env : DriverEnv) :
    ∀ (fuel : Nat) (msgs : List ChatMessage),
      ∃ t, runConversation env msgs (fuel + 1) = runConversation env msgs fuel ++ t := by
  intro fuel
  induction fuel with
  | zero =>
    intro msgs
    simpa [runConversation] using runConversation_extends env 1 msgs
  | succ f ih =>
    intro msgs
    show ∃ t,
      (let am := env.model msgs
       let msgs1 := msgs ++ [{ role := Role.assistant, content := am.1, toolCalls := am.2 }]
       if am.2.isEmpty then msgs1
       else runConversation env (msgs1 ++ toolResponses env am.2) (f + 1)) =
      (let am := env.model msgs
       let msgs1 := msgs ++ [{ role := Role.assistant, content := am.1, toolCalls := am.2 }]
       if am.2.isEmpty then msgs1
       else runConversation env (msgs1 ++ toolResponses env am.2) f) ++ _
    by_cases he : (env.model msgs).2.isEmpty
    · simp only [he, if_true]; exact ⟨[], by simp⟩
    · simp only [he, if_false]
      exact ih _

/-- C4: from the initial system+user history, after any number of driver
iterations the history is well formed (every tool-role message's call ID
matches the corresponding tool call of the immediately preceding
assistant message, in emission order), and the history is append-only:
each further iteration budget only appends messages. -/
theorem C4_conversation_invariant (env : DriverEnv) (sys u : String) (fuel : Nat) :
    conversationWF (runConversation env (initMessages sys u) fuel) = true
    ∧ (∃ t, runConversation env (initMessages sys u) (fuel + 1)
          = runConversation env (initMessages sys u) fuel ++ t)
    ∧ (∃ t, runConversation env (initMessages sys u) fuel = initMessages sys u ++ t) := by
  refine ⟨?_, runConversation_mono env fuel _, runConversation_extends env fuel _⟩
  have h0 : convRun (initMessages sys u) [] = some [] := by
    simp [initMessages, convRun]
  simp [conversationWF, runConversation_wf env fuel _ h0]

/-! ## Claims C2, C7, C10 -/

/-- A replay step never changes an entry's tool name or arguments. -/
theorem replayStep_preserves (env : ReplayEnv) (acc : List CommandInvocation)
    (cmd : CommandInvocation) :
    (replayStep env acc cmd).toolName = cmd.toolName
    ∧ (replayStep env acc cmd).arguments = cmd.arguments := by
  cases h : env.exec cmd.toolName cmd.arguments with
  | error e => simp [replayStep, h]
  | ok r =>
    by_cases hh : calculateHash cmd.result = calculateHash (freshAfterRepair env acc cmd r) <;>
      simp [replayStep, h, hh]

/-- The replay loop maps each original entry to exactly one new entry, in
order, keeping tool name and arguments. -/
theorem replayAllAux_map (env : ReplayEnv) :
    ∀ (l acc : List CommandInvocation),
      (replayAllAux env acc l).map (fun c => (c.toolName, c.arguments))
        = acc.map (fun c => (c.toolName, c.arguments))
          ++ l.map (fun c => (c.toolName, c.arguments)) := by
  intro l
  induction l with
  | nil => intro acc; simp [replayAllAux]
  | cons c rest ih =>
    intro acc
    show (replayAllAux env (acc ++ [replayStep env acc c]) rest).map _ = _
    rw [ih]
    simp [(replayStep_preserves env acc c).1, (replayStep_preserves env acc c).2]

/-- C2: when re-execution of an entry succeeds, the new entry keeps the
original result text exactly when the content hashes of the recorded and
the (post-repair) fresh result agree, and stores the fresh result when
they differ — in both cases with the original tool name and arguments and
a fresh timestamp; and when the fresh result does not carry the
backend-reported error flag, the repair machinery is never consulted (a
hash mismatch alone cannot trigger it). -/
theorem C2_replay_hash (env : ReplayEnv) (acc : List CommandInvocation)
    (cmd : CommandInvocation) (result0 : String)
    (hexec : env.exec cmd.toolName cmd.arguments = Except.ok result0) :
    (calculateHash cmd.result = calculateHash (freshAfterRepair env acc cmd result0) →
      replayStep env acc cmd
        = { toolName := cmd.toolName, arguments := cmd.arguments,
            result := cmd.result, timestamp := env.now })
    ∧ (calculateHash cmd.result ≠ calculateHash (freshAfterRepair env acc cmd result0) →
      replayStep env acc cmd
        = { toolName := cmd.toolName, arguments := cmd.arguments,
            result := freshAfterRepair env acc cmd result0, timestamp := env.now })
    ∧ (env.parseIsError result0 = false →
      freshAfterRepair env acc cmd result0 = result0
      ∧ repairInvoked env acc cmd result0 = false) := by
  refine ⟨fun hh => ?_, fun hh => ?_, fun hp => ?_⟩
  · simp [replayStep, hexec, hh]
  · simp [replayStep, hexec, hh]
  · exact ⟨by simp [freshAfterRepair, hp], by simp [repairInvoked, hp]⟩

set_option maxRecDepth 40000 in
/-- C2 witness: equal hashes keep the original result text; a
byte-for-byte different fresh result (no error flag) is stored as the new
result without consulting the repair machinery. -/
theorem C2_witness :
    replayStep c2EnvEq [] c2CmdEq
      = { toolName := "navigate", arguments := [("url", "https://example.com")],
          result := "same", timestamp := "2025-01-01T00:00:01Z" }
    ∧ replayStep c2EnvNe [] c2CmdNe
      = { toolName := "navigate", arguments := [("url", "https://example.com")],
          result := "new", timestamp := "2025-01-01T00:00:01Z" }
    ∧ repairInvoked c2EnvNe [] c2CmdNe "new" = false := by
  refine ⟨(C2_replay_hash c2EnvEq [] c2CmdEq "same" rfl).1 rfl, ?_, ?_⟩
  · exact (C2_replay_hash c2EnvNe [] c2CmdNe "new" rfl).2.1 (by decide)
  · exact ((C2_replay_hash c2EnvNe [] c2CmdNe "new" rfl).2.2 rfl).2

/-- C7: a missing ledger file makes the replay pass return `(false, nil)`
with no new ledger and nothing executed; an entry whose re-execution
fails outright is kept unchanged in the new ledger; and the pass always
processes every entry, producing exactly one new entry per original
(a single failure never aborts the loop). -/
theorem C7_missing_file_and_local_failure :
    (∀ (env : ReplayEnv) (filename : String),
      executeStoredCommands env filename LedgerFile.missing = ((false, none), none))
    ∧ (∀ (env : ReplayEnv) (acc : List CommandInvocation) (cmd : CommandInvocation)
        (e : String), env.exec cmd.toolName cmd.arguments = Except.error e →
        replayStep env acc cmd = cmd)
    ∧ (∀ (env : ReplayEnv) (cmds : List CommandInvocation),
        (replayAll env cmds).length = cmds.length) := by
  refine ⟨fun env filename => rfl, fun env acc cmd e h => by simp [replayStep, h],
    fun env cmds => ?_⟩
  have h := replayAllAux_map env cmds []
  have := congrArg List.length h
  simpa [replayAll] using this

/-- C7 witness: the missing-file return pair, an entry kept verbatim on
execution failure, and a two-entry ledger replayed into two entries. -/
theorem C7_witness :
    executeStoredCommands c7Env "learning.json" LedgerFile.missing = ((false, none), none)
    ∧ replayStep c7Env [] c7Cmd = c7Cmd
    ∧ (replayAll c7Env [c7Cmd, c7Cmd]).length = 2 :=
  ⟨C7_missing_file_and_local_failure.1 c7Env "learning.json",
   C7_missing_file_and_local_failure.2.1 c7Env [] c7Cmd "tool not found: navigate" rfl,
   C7_missing_file_and_local_failure.2.2 c7Env [c7Cmd, c7Cmd]⟩

/-- C10: the new ledger a replay pass produces has exactly one entry per
original entry, in the original order, each keeping the original tool
name and argument mapping — for every environment, so in particular
corrected arguments parsed by the repair path are never stored. -/
theorem C10_ledger_shape (env : ReplayEnv) (cmds : List CommandInvocation) :
    (replayAll env cmds).map (fun c => (c.toolName, c.arguments))
      = cmds.map (fun c => (c.toolName, c.arguments)) := by
  have h := replayAllAux_map env cmds []
  simpa [replayAll] using h

end Spec2Proof
